import Mathlib

/-!
# Verification of the `cpu.py` byte-code emulator

A shallow embedding of the LS-8 style emulator implemented in `src/cpu.py`
(class `CPU`), together with theorems settling the frozen claims about it.

Modelling conventions, matching the Python source:

* A Python value stored in `self.ram`, `self.reg`, `self.pc` or `self.fl` is
  either a native `int` or a string produced by the format `f'{n:08b}'`
  (the binary rendering of the integer `n`, zero padded to width 8, sign
  aware).  Every string the program ever stores arises from that format, so
  a string value is represented as `Val.str n`, carrying the integer it
  renders; `int(s, 2)` recovers exactly `n`.  A native int is `Val.int n`.
* Python list subscripts resolve negative indices by wrapping from the end
  and raise `IndexError` when out of range (`listPyGet` / `listPySet`).
* `int(x, 2)` applied to a non-string raises `TypeError` (`valIntB`);
  arithmetic or subscripting with a string where an int is required raises
  `TypeError` (`valInt`).
* Python's bitwise operators on arbitrary (possibly negative) ints use
  infinite two's complement; `pyAnd`, `pyOr`, `pyXor` implement them via
  `Nat` bitwise operations on magnitudes.  `x >> n` is floor division by
  `2 ^ n`, `x % m` is floor remainder (`Int.fmod`), and `x << n` or
  `x >> n` with negative `n` raises `ValueError`.
* Wall-clock time and the non-blocking keyboard read are external inputs;
  one execution-loop iteration is parameterised by `timerFired : Bool`
  (the one-second timer elapsed) and `key : Option Nat` (the code point of
  an available keystroke, `none` when `get_data()` returned `False`).
* `print(...)` output (the caller-visible channel) is accumulated in a
  `stdout` field; the accumulator `self.next_room` is a separate field.
-/

set_option maxRecDepth 40000

/-- Python exceptions that the emulator code can raise. -/
inductive PyErr where
  | typeError
  | valueError
  | indexError
  | keyError
  | zeroDivisionError
  deriving DecidableEq, Repr

/-- A Python value held in a machine cell (ram, registers, pc, fl): either a
native `int` (`Val.int`, the spec's *Raw* cell) or the string `f'{n:08b}'`
(`Val.str`, the spec's *Byte* cell, carrying the integer it renders). -/
inductive Val where
  | int (z : Int)
  | str (z : Int)
  deriving DecidableEq, Repr

/-- Resolve a Python list subscript: non-negative indices in range are used
directly, negative indices wrap from the end, anything else is out of range. -/
def pyIdx (len : Nat) (i : Int) : Option Nat :=
  if 0 ≤ i then
    if i < len then some i.toNat else none
  else
    if 0 ≤ i + len then some (i + len).toNat else none

deriving instance DecidableEq for Except

/-- Python `l[i]` on a list: wrap negative indices, `IndexError` out of range. -/
def listPyGet (l : List Val) (i : Int) : Except PyErr Val :=
  match pyIdx l.length i with
  | some n =>
    match l[n]? with
    | some v => .ok v
    | none => .error .indexError
  | none => .error .indexError

/-- Python `l[i] = v` on a list: wrap negative indices, `IndexError` out of
range.  Returns the updated list. -/
def listPySet (l : List Val) (i : Int) (v : Val) : Except PyErr (List Val) :=
  match pyIdx l.length i with
  | some n => if n < l.length then .ok (l.set n v) else .error .indexError
  | none => .error .indexError

/-- Python `int(x, 2)`: a string cell yields the integer it renders, an int
argument raises `TypeError` (int() can't convert non-string with explicit
base). -/
def valIntB : Val → Except PyErr Int
  | .str z => .ok z
  | .int _ => .error .typeError

/-- Use a value where Python needs an int (arithmetic, list subscript, `&`):
a string raises `TypeError`. -/
def valInt : Val → Except PyErr Int
  | .int z => .ok z
  | .str _ => .error .typeError

/-- Python `v + n` for an int operand: `TypeError` when `v` is a string. -/
def valAdd (v : Val) (n : Int) : Except PyErr Val :=
  match v with
  | .int z => .ok (.int (z + n))
  | .str _ => .error .typeError

/-- `a &&& (a ^^^ m)` computes `a AND (NOT m)` on naturals bit by bit. -/
def natLdiff (a m : Nat) : Nat := a &&& (a ^^^ m)

/-- Python `a & b` on arbitrary ints (infinite two's complement). -/
def pyAnd (a b : Int) : Int :=
  if 0 ≤ a then
    if 0 ≤ b then Int.ofNat (a.toNat &&& b.toNat)
    else Int.ofNat (natLdiff a.toNat (-b - 1).toNat)
  else
    if 0 ≤ b then Int.ofNat (natLdiff b.toNat (-a - 1).toNat)
    else -(Int.ofNat ((-a - 1).toNat ||| (-b - 1).toNat)) - 1

/-- Python `a | b` on arbitrary ints (infinite two's complement). -/
def pyOr (a b : Int) : Int :=
  if 0 ≤ a then
    if 0 ≤ b then Int.ofNat (a.toNat ||| b.toNat)
    else -(Int.ofNat (natLdiff (-b - 1).toNat a.toNat)) - 1
  else
    if 0 ≤ b then -(Int.ofNat (natLdiff (-a - 1).toNat b.toNat)) - 1
    else -(Int.ofNat ((-a - 1).toNat &&& (-b - 1).toNat)) - 1

/-- Python `a ^ b` on arbitrary ints (infinite two's complement). -/
def pyXor (a b : Int) : Int :=
  if 0 ≤ a then
    if 0 ≤ b then Int.ofNat (a.toNat ^^^ b.toNat)
    else -(Int.ofNat (a.toNat ^^^ (-b - 1).toNat)) - 1
  else
    if 0 ≤ b then -(Int.ofNat ((-a - 1).toNat ^^^ b.toNat)) - 1
    else Int.ofNat ((-a - 1).toNat ^^^ (-b - 1).toNat)

/-- Python `~a`. -/
def pyNot (a : Int) : Int := -a - 1

/-- Python `a >> b`: floor division by `2 ^ b`; negative shift counts raise
`ValueError`. -/
def pyShr (a b : Int) : Except PyErr Int :=
  if b < 0 then .error .valueError else .ok (Int.fdiv a (2 ^ b.toNat))

/-- Python `a << b`: multiplication by `2 ^ b`; negative shift counts raise
`ValueError`. -/
def pyShl (a b : Int) : Except PyErr Int :=
  if b < 0 then .error .valueError else .ok (a * 2 ^ b.toNat)

/-- Python `a % b`: floor remainder; `ZeroDivisionError` when `b = 0`. -/
def pyMod (a b : Int) : Except PyErr Int :=
  if b = 0 then .error .zeroDivisionError else .ok (Int.fmod a b)

/-- Zero-pad a digit list on the left to width `w`. -/
def pad0 (w : Nat) (ds : List Char) : List Char :=
  List.replicate (w - ds.length) '0' ++ ds

/-- Python `f'{z:08b}'`: the binary rendering of `z`, zero padded to width 8
with the sign counting toward the width. -/
def bin8 (z : Int) : String :=
  if z < 0 then String.mk ('-' :: pad0 7 (Nat.toDigits 2 (-z).toNat))
  else String.mk (pad0 8 (Nat.toDigits 2 z.toNat))

/-- The machine state of one `CPU` instance: the fields of `CPU.__init__`
that execution reads or writes (`ram`, `reg`, `pc`, `fl`, `interrupts`,
`next_room`, `heap_height`), plus the text printed so far (`stdout`). -/
structure CPUState where
  ram : List Val
  reg : List Val
  pc : Val
  fl : Val
  interrupts : Bool
  next_room : String
  stdout : String
  heap_height : Int
  deriving DecidableEq, Repr

/-- `self.arg_1 = 0xff`. -/
def arg1 : Int := 0xff

/-- `self.arg_2 = 0xfe`. -/
def arg2 : Int := 0xfe

/-- The freshly constructed machine of `CPU.__init__`: 256 ram cells holding
the int `0`, eight registers holding the string `'00000000'` except the
stack pointer (slot 7) holding the int `0xf4`, `pc = 0`, `fl = 0`,
interrupts enabled, empty accumulator. -/
def initCPU : CPUState :=
  { ram := List.replicate 256 (Val.int 0)
  , reg := (List.replicate 8 (Val.str 0)).set 7 (Val.int 0xf4)
  , pc := .int 0
  , fl := .int 0
  , interrupts := true
  , next_room := ""
  , stdout := ""
  , heap_height := 0 }

namespace CPU

/-- `self.first()`: `self.ram_read(self.arg_1)`. -/
def first (s : CPUState) : Except PyErr Val := listPyGet s.ram arg1

/-- `self.second()`: `self.ram_read(self.arg_2)`. -/
def second (s : CPUState) : Except PyErr Val := listPyGet s.ram arg2

/-- The type of an instruction handler: it may raise, and returns the
handler's Python return value (`none` for `None`, `some t` for the string
`t`) along with the mutated machine. -/
def Handler : Type := CPUState → Except PyErr (Option String × CPUState)

/-- Render a value the way an f-string interpolates it: an int in decimal,
a string as itself. -/
def ppVal : Val → String
  | .int z => toString z
  | .str z => bin8 z

/-- `self.reg[self.SP] -= 1`: requires the stack-pointer slot to hold an
int (a string minus an int is a `TypeError`). -/
def spDec (s : CPUState) : Except PyErr CPUState := do
  let v ← listPyGet s.reg 7
  match v with
  | .int z => do
    let reg ← listPySet s.reg 7 (.int (z - 1))
    pure { s with reg := reg }
  | .str _ => .error .typeError

/-- `self.reg[self.SP] += 1`. -/
def spInc (s : CPUState) : Except PyErr CPUState := do
  let v ← listPyGet s.reg 7
  match v with
  | .int z => do
    let reg ← listPySet s.reg 7 (.int (z + 1))
    pure { s with reg := reg }
  | .str _ => .error .typeError

/-- `CPU.PRN`: print the decimal rendering of register A to stdout and
return the register's string (which `run` appends to the accumulator). -/
def PRN : Handler := fun s => do
  let ai ← valIntB (← first s)
  let number ← listPyGet s.reg ai
  let n ← valIntB number
  pure (some (ppVal number), { s with stdout := s.stdout ++ toString n })

/-- Python `chr(z)`: `ValueError` outside the code-point range.  (Lean's
`Char` cannot carry surrogate code points; `Char.ofNat` maps those to NUL,
a divergence irrelevant to the claims.) -/
def pyChr (z : Int) : Except PyErr String :=
  if 0 ≤ z ∧ z < 1114112 then .ok (String.mk [Char.ofNat z.toNat])
  else .error .valueError

/-- `CPU.PRA`: print the character for register A's value and return it. -/
def PRA : Handler := fun s => do
  let ai ← valIntB (← first s)
  let address ← listPyGet s.reg ai
  let v ← valIntB address
  let character ← pyChr v
  pure (some character, { s with stdout := s.stdout ++ character })

/-- `CPU.LDI`: `self.reg[int(self.first(), 2)] = self.second()` (the operand
cell is stored into the register unconverted). -/
def LDI : Handler := fun s => do
  let c ← second s
  let ai ← valIntB (← first s)
  let reg ← listPySet s.reg ai c
  pure (none, { s with reg := reg })

/-- `CPU.HLT`: the body is `pass`. -/
def HLT : Handler := fun s => pure (none, s)

/-- `CPU.NOP`. -/
def NOP : Handler := fun s => pure (none, s)

/-- `CPU.LD`: load the ram cell at the address in register B into
register A. -/
def LD : Handler := fun s => do
  let bi ← valIntB (← second s)
  let addr ← valIntB (← listPyGet s.reg bi)
  let c ← listPyGet s.ram addr
  let ai ← valIntB (← first s)
  let reg ← listPySet s.reg ai c
  pure (none, { s with reg := reg })

/-- `CPU.ST`: store register B's value at the ram address in register A. -/
def ST : Handler := fun s => do
  let bi ← valIntB (← second s)
  let c ← listPyGet s.reg bi
  let ai ← valIntB (← first s)
  let addr ← valIntB (← listPyGet s.reg ai)
  let ram ← listPySet s.ram addr c
  pure (none, { s with ram := ram })

/-- `CPU.PUSH`: decrement the stack pointer, then write register A's value
at the new top of stack.  No bounds check: a negative pointer wraps through
Python's negative indexing. -/
def PUSH : Handler := fun s => do
  let s ← spDec s
  let ai ← valIntB (← first s)
  let v ← listPyGet s.reg ai
  let spv ← valInt (← listPyGet s.reg 7)
  let ram ← listPySet s.ram spv v
  pure (none, { s with ram := ram })

/-- `CPU.POP`: read the top of stack into register A, then increment the
stack pointer. -/
def POP : Handler := fun s => do
  let spv ← valInt (← listPyGet s.reg 7)
  let c ← listPyGet s.ram spv
  let ai ← valIntB (← first s)
  let reg ← listPySet s.reg ai c
  let s ← spInc { s with reg := reg }
  pure (none, s)

/-- `CPU.CALL`: push `self.pc + 1` (a native int, a Raw cell) and jump to
the address in register A. -/
def CALL : Handler := fun s => do
  let s ← spDec s
  let ret ← valAdd s.pc 1
  let spv ← valInt (← listPyGet s.reg 7)
  let ram ← listPySet s.ram spv ret
  let s := { s with ram := ram }
  let ai ← valIntB (← first s)
  let av ← valIntB (← listPyGet s.reg ai)
  pure (none, { s with pc := .int av })

/-- `CPU.RET`: pop the cell at the top of stack into `pc` (unconverted). -/
def RET : Handler := fun s => do
  let spv ← valInt (← listPyGet s.reg 7)
  let c ← listPyGet s.ram spv
  let s ← spInc { s with pc := c }
  pure (none, s)

/-- `CPU.JMP`. -/
def JMP : Handler := fun s => do
  let ai ← valIntB (← first s)
  let av ← valIntB (← listPyGet s.reg ai)
  pure (none, { s with pc := .int av })

/-- Shared shape of the conditional jumps: jump to the address in register A
when `cond fl` is nonzero, else advance the pc. -/
def condJump (cond : Int → Int) : Handler := fun s => do
  let f ← valInt s.fl
  if cond f ≠ 0 then do
    let ai ← valIntB (← first s)
    let av ← valIntB (← listPyGet s.reg ai)
    pure (none, { s with pc := .int av })
  else do
    let pc ← valAdd s.pc 1
    pure (none, { s with pc := pc })

/-- `CPU.JEQ`: `if self.fl & 1`. -/
def JEQ : Handler := condJump (fun f => pyAnd f 1)

/-- `CPU.JNE`: `if not self.fl & 1` (branch and fall-through swapped). -/
def JNE : Handler := fun s => do
  let f ← valInt s.fl
  if pyAnd f 1 = 0 then do
    let ai ← valIntB (← first s)
    let av ← valIntB (← listPyGet s.reg ai)
    pure (none, { s with pc := .int av })
  else do
    let pc ← valAdd s.pc 1
    pure (none, { s with pc := pc })

/-- `CPU.JGT`: `if self.fl & (1 << 1)`. -/
def JGT : Handler := condJump (fun f => pyAnd f 2)

/-- `CPU.JGE`: `if self.fl & 1 or self.fl & (1 << 1)` — Python `or` on two
ints is truthy when either is nonzero. -/
def JGE : Handler := condJump (fun f => if pyAnd f 1 ≠ 0 then pyAnd f 1 else pyAnd f 2)

/-- `CPU.JLT`: `if self.fl & (1 << 2)`. -/
def JLT : Handler := condJump (fun f => pyAnd f 4)

/-- `CPU.JLE`: `if self.fl & 1 or self.fl & (1 << 2)`. -/
def JLE : Handler := condJump (fun f => if pyAnd f 1 ≠ 0 then pyAnd f 1 else pyAnd f 4)

/-- Fetch the register indices and values named by the two operand cells, in
source evaluation order (`first` before `second`).  The assignment target
re-evaluates `int(self.first(), 2)`, which reads the same unmutated cell, so
the index is reused. -/
def binArgs (s : CPUState) : Except PyErr (Int × Int × Int) := do
  let ai ← valIntB (← first s)
  let av ← valIntB (← listPyGet s.reg ai)
  let bi ← valIntB (← second s)
  let bv ← valIntB (← listPyGet s.reg bi)
  pure (ai, av, bv)

/-- The single-operand variant: register index and value from `first`. -/
def unArg (s : CPUState) : Except PyErr (Int × Int) := do
  let ai ← valIntB (← first s)
  let av ← valIntB (← listPyGet s.reg ai)
  pure (ai, av)

/-- Store the string `f'{r:08b}'` into register `ai`. -/
def storeReg (s : CPUState) (ai r : Int) : Except PyErr (Option String × CPUState) := do
  let reg ← listPySet s.reg ai (.str r)
  pure (none, { s with reg := reg })

/-- `CPU.DEC`: `(a - 1) & 0xff`. -/
def DEC : Handler := fun s => do
  let (ai, av) ← unArg s
  storeReg s ai (pyAnd (av - 1) 0xff)

/-- `CPU.INC`: `(a + 1) & 0xff`. -/
def INC : Handler := fun s => do
  let (ai, av) ← unArg s
  storeReg s ai (pyAnd (av + 1) 0xff)

/-- `CPU.ADD`: `(a + b) & 0xff`. -/
def ADD : Handler := fun s => do
  let (ai, av, bv) ← binArgs s
  storeReg s ai (pyAnd (av + bv) 0xff)

/-- `CPU.SUB`: the source computes `(a - b) * 0xff` — a product with 255,
not a masked difference.  The result is stored unmasked. -/
def SUB : Handler := fun s => do
  let (ai, av, bv) ← binArgs s
  storeReg s ai ((av - bv) * 0xff)

/-- `CPU.MUL`: `(a * b) & 0xff`. -/
def MUL : Handler := fun s => do
  let (ai, av, bv) ← binArgs s
  storeReg s ai (pyAnd (av * bv) 0xff)

/-- `CPU.DIV`: `(a >> b) & 0xff` — a right shift, not a quotient. -/
def DIV : Handler := fun s => do
  let (ai, av, bv) ← binArgs s
  let d ← pyShr av bv
  storeReg s ai (pyAnd d 0xff)

/-- `CPU.MOD`: `(a % b) & 0xff`. -/
def MOD : Handler := fun s => do
  let (ai, av, bv) ← binArgs s
  let m ← pyMod av bv
  storeReg s ai (pyAnd m 0xff)

/-- `CPU.AND`: `(a & b) & 0xff`. -/
def AND : Handler := fun s => do
  let (ai, av, bv) ← binArgs s
  storeReg s ai (pyAnd (pyAnd av bv) 0xff)

/-- `CPU.OR`: `(a | b) & 0xff`. -/
def OR : Handler := fun s => do
  let (ai, av, bv) ← binArgs s
  storeReg s ai (pyAnd (pyOr av bv) 0xff)

/-- `CPU.XOR`: `(a ^ b) & 0xff`. -/
def XOR : Handler := fun s => do
  let (ai, av, bv) ← binArgs s
  storeReg s ai (pyAnd (pyXor av bv) 0xff)

/-- `CPU.NOT`: the source computes `int(~int(reg, 2), 2)` — the outer
`int(..., 2)` is applied to the already-converted int `~a`, which always
raises `TypeError` (int() can't convert non-string with explicit base). -/
def NOT : Handler := fun s => do
  let (_ai, av) ← unArg s
  let _noted := pyNot av
  .error .typeError

/-- `CPU.SHL`: `(a << b) & 0xff`. -/
def SHL : Handler := fun s => do
  let (ai, av, bv) ← binArgs s
  let r ← pyShl av bv
  storeReg s ai (pyAnd r 0xff)

/-- `CPU.SHR`: `(a >> b) & 0xff`. -/
def SHR : Handler := fun s => do
  let (ai, av, bv) ← binArgs s
  let r ← pyShr av bv
  storeReg s ai (pyAnd r 0xff)

/-- `CPU.CMP`: three sequential conditionals; the taken one masks `fl` to
its own bit and then sets that bit (`fl = fl & m; fl = fl | m`).  Using
`fl` in `&` requires it to hold an int. -/
def CMP : Handler := fun s => do
  let (_ai, av, bv) ← binArgs s
  let s ← if av = bv then do
      let f ← valInt s.fl
      let f1 := pyAnd f 0b00000001
      pure { s with fl := .int (pyOr f1 0b00000001) }
    else pure s
  let s ← if av > bv then do
      let f ← valInt s.fl
      let f1 := pyAnd f 0b00000010
      pure { s with fl := .int (pyOr f1 0b00000010) }
    else pure s
  let s ← if av < bv then do
      let f ← valInt s.fl
      let f1 := pyAnd f 0b00000100
      pure { s with fl := .int (pyOr f1 0b00000100) }
    else pure s
  pure (none, s)

/-- The register-saving loop of `CPU.INT`: `for i in range(7)`, decrement
the stack pointer, push `reg[i]`, zero `reg[i]`. -/
def pushRegs : List Int → CPUState → Except PyErr CPUState
  | [], s => .ok s
  | i :: is, s => do
    let s ← spDec s
    let c ← listPyGet s.reg i
    let spv ← valInt (← listPyGet s.reg 7)
    let ram ← listPySet s.ram spv c
    let reg ← listPySet s.reg i (.str 0)
    pushRegs is { s with ram := ram, reg := reg }

/-- `CPU.INT`: clear the serviced IS bit (with the source's
`& 7 - ((0xff - interrupt) + 1)` formula, precedence and all), disable
interrupts, push `pc` and `fl` as native ints, push and zero registers
0..6, and jump to the handler address stored at `ram[interrupt]`. -/
def INT : Handler := fun s => do
  let interrupt ← valIntB (← first s)
  let isv ← valIntB (← listPyGet s.reg 6)
  let reg ← listPySet s.reg 6 (.str (pyAnd isv (7 - ((0xff - interrupt) + 1))))
  let s := { s with reg := reg, interrupts := false }
  let s ← spDec s
  let spv ← valInt (← listPyGet s.reg 7)
  let ram ← listPySet s.ram spv s.pc
  let s := { s with ram := ram }
  let s ← spDec s
  let spv2 ← valInt (← listPyGet s.reg 7)
  let ram2 ← listPySet s.ram spv2 s.fl
  let s := { s with ram := ram2 }
  let s ← pushRegs [0, 1, 2, 3, 4, 5, 6] s
  let v ← valIntB (← listPyGet s.ram interrupt)
  pure (none, { s with pc := .int v })

/-- The register-restoring loop of `CPU.IRET`: `for i in range(6, -1, -1)`,
pop the top of stack into `reg[i]` and increment the stack pointer. -/
def popRegs : List Int → CPUState → Except PyErr CPUState
  | [], s => .ok s
  | i :: is, s => do
    let spv ← valInt (← listPyGet s.reg 7)
    let c ← listPyGet s.ram spv
    let reg ← listPySet s.reg i c
    let s ← spInc { s with reg := reg }
    popRegs is s

/-- `CPU.IRET`: restore registers 6..0, then `fl`, then `pc` (both stored
unconverted), and re-enable interrupts. -/
def IRET : Handler := fun s => do
  let s ← popRegs [6, 5, 4, 3, 2, 1, 0] s
  let spv ← valInt (← listPyGet s.reg 7)
  let c ← listPyGet s.ram spv
  let s ← spInc { s with fl := c }
  let spv2 ← valInt (← listPyGet s.reg 7)
  let c2 ← listPyGet s.ram spv2
  let s ← spInc { s with pc := c2 }
  pure (none, { s with interrupts := true })

/-- `self.op_map[1][0]`: the ALU namespace of the dispatch table. -/
def opMapAlu (op : Int) : Option Handler :=
  if op = 0b0000 then some ADD
  else if op = 0b1000 then some AND
  else if op = 0b0111 then some CMP
  else if op = 0b0110 then some DEC
  else if op = 0b0011 then some DIV
  else if op = 0b0101 then some INC
  else if op = 0b0100 then some MOD
  else if op = 0b0010 then some MUL
  else if op = 0b1001 then some NOT
  else if op = 0b1010 then some OR
  else if op = 0b1100 then some SHL
  else if op = 0b1101 then some SHR
  else if op = 0b0001 then some SUB
  else if op = 0b1011 then some XOR
  else none

/-- `self.op_map[0][1]`: the pc-setting namespace of the dispatch table. -/
def opMapPC (op : Int) : Option Handler :=
  if op = 0b0000 then some CALL
  else if op = 0b0010 then some INT
  else if op = 0b0011 then some IRET
  else if op = 0b0101 then some JEQ
  else if op = 0b1010 then some JGE
  else if op = 0b0111 then some JGT
  else if op = 0b1001 then some JLE
  else if op = 0b1000 then some JLT
  else if op = 0b0100 then some JMP
  else if op = 0b0110 then some JNE
  else if op = 0b0001 then some RET
  else none

/-- `self.op_map[0][0]`: the core namespace of the dispatch table. -/
def opMapCore (op : Int) : Option Handler :=
  if op = 0b0001 then some HLT
  else if op = 0b0011 then some LD
  else if op = 0b0010 then some LDI
  else if op = 0b0000 then some NOP
  else if op = 0b0110 then some POP
  else if op = 0b1000 then some PRA
  else if op = 0b0111 then some PRN
  else if op = 0b0101 then some PUSH
  else if op = 0b0100 then some ST
  else none

/-- `self.op_map[alu][adv_pc]`, then the `op_code in ...` membership test:
`op_map[1][1]` is `None`, so testing membership in it raises `TypeError`;
keys other than 0 and 1 would raise `KeyError` (unreachable from decoding). -/
def lookupOp (alu adv op : Int) : Except PyErr (Option Handler) :=
  if alu = 1 then
    if adv = 1 then .error .typeError
    else if adv = 0 then .ok (opMapAlu op)
    else .error .keyError
  else if alu = 0 then
    if adv = 1 then .ok (opMapPC op)
    else if adv = 0 then .ok (opMapCore op)
    else .error .keyError
  else .error .keyError

/-- `self.ram_read(self.pc)`: subscripting ram by the current pc. -/
def fetchCurrentCell (s : CPUState) : Except PyErr Val := do
  let p ← valInt s.pc
  listPyGet s.ram p

/-- The operand-fetch loop of `CPU.run`: `for _ in range(_bytes)`, advance
the pc, copy the cell there into `ram[args]`, decrement `args`.  `args`
starts at `0xff`. -/
def fetchOperands : Nat → Int → CPUState → Except PyErr CPUState
  | 0, _, s => .ok s
  | n + 1, args, s => do
    let pc ← valAdd s.pc 1
    let s := { s with pc := pc }
    let c ← fetchCurrentCell s
    let ram ← listPySet s.ram args c
    fetchOperands n (args - 1) { s with ram := ram }

/-- `run`'s treatment of a handler's return value: a truthy `info` (a
non-empty string) is appended to the Output Accumulator `next_room`. -/
def applyInfo (info : Option String) (s : CPUState) : CPUState :=
  match info with
  | none => s
  | some t => if t ≠ "" then { s with next_room := s.next_room ++ t } else s

/-- One decode-and-dispatch of `CPU.run`, given the instruction string's
value: extract the operand count, the ALU bit, the sets-pc bit and the op
code; fetch operands into `ram[0xff]` downward; advance the pc unless the
instruction manages it; dispatch through the table, printing an
`Unknown instruction` warning and continuing when the lookup misses. -/
def execInstr (instruction : Int) (s : CPUState) : Except PyErr CPUState := do
  let bytes := Int.fdiv instruction 64
  let alu := Int.fdiv (pyAnd instruction 0b00100000) 32
  let adv := Int.fdiv (pyAnd instruction 0b00010000) 16
  let op := pyAnd instruction 0b00001111
  let s ← fetchOperands bytes.toNat 0xff s
  let s ← if adv = 0 then do
      let pc ← valAdd s.pc 1
      pure { s with pc := pc }
    else pure s
  match ← lookupOp alu adv op with
  | some h => do
    let (info, s) ← h s
    pure (applyInfo info s)
  | none =>
    pure { s with stdout :=
      s.stdout ++ "Unknown instruction " ++ toString op ++ " at address " ++ ppVal s.pc ++ "\n" }

/-- The outcome of one iteration of the `while True` loop: the run returned
(halted) with the accumulator text, or execution continues in a new state. -/
inductive StepResult where
  | halted (out : String)
  | next (s : CPUState)
  deriving DecidableEq, Repr

/-- The part of a `CPU.run` iteration after the interrupt poll: return the
accumulator if the cell at the pc is a native int (a Raw cell), otherwise
decode and dispatch one instruction. -/
def execPhase (s : CPUState) : Except PyErr StepResult := do
  let c ← fetchCurrentCell s
  match c with
  | .int _ => pure (.halted s.next_room)
  | .str instruction => do
    let s ← execInstr instruction s
    pure (.next s)

/-- The interrupt-vector address the poll writes before calling `INT`:
`(args - 7) + i` with `args = 0xff`. -/
def vectorAddr (i : Nat) : Int := (0xff - 7) + i

/-- The `for i in range(8)` scan for the lowest set bit of
`mask = IM & IS`: `(mask >> i) & 1 == 1`. -/
def firstInterrupt (mask : Int) : Option Nat :=
  (List.range 8).find? (fun i => Int.emod (Int.fdiv mask (2 ^ i)) 2 = 1)

/-- The ESC test inside the keyboard branch: `if key == '\\x1b': self.HLT()` —
a call to `HLT`, whose body is `pass`, after which polling continues. -/
def pollEsc (k : Nat) (s : CPUState) : Except PyErr CPUState :=
  if k = 0x1b then do
    let (_info, s) ← HLT s
    pure s
  else pure s

/-- The keyboard branch of the poll: when a key is available, call `HLT()`
if it is ESC, write the key's code to `ram[0xf4]` and set IS bit 1. -/
def pollKey (key : Option Nat) (s : CPUState) : Except PyErr CPUState :=
  match key with
  | none => pure s
  | some k => do
    let s ← pollEsc k s
    let ram ← listPySet s.ram 0xf4 (.str k)
    let s := { s with ram := ram }
    let reg ← listPySet s.reg 6 (.str 0b00000010)
    pure { s with reg := reg }

/-- The timer branch of the poll: when a wall-clock second has elapsed,
`reg[IS] = '00000001'`. -/
def pollTimer (timerFired : Bool) (s : CPUState) : Except PyErr CPUState :=
  if timerFired then do
    let reg ← listPySet s.reg 6 (.str 0b00000001)
    pure { s with reg := reg }
  else pure s

/-- The interrupt-service check of the poll: compute `mask = IM & IS`; when
some line is active, write its vector address to `ram[0xff]` (the `args`
slot) and call `INT`. -/
def checkInterrupts (s : CPUState) : Except PyErr CPUState := do
  let im ← valIntB (← listPyGet s.reg 5)
  let isv ← valIntB (← listPyGet s.reg 6)
  match firstInterrupt (pyAnd im isv) with
  | some i => do
    let ram ← listPySet s.ram 0xff (.str (vectorAddr i))
    let (_info, s) ← INT { s with ram := ram }
    pure s
  | none => pure s

/-- The interrupt poll at the top of each `CPU.run` iteration, active only
while interrupts are enabled: timer check, keyboard check, then service of
the lowest active interrupt line. -/
def pollPhase (timerFired : Bool) (key : Option Nat) (s : CPUState) :
    Except PyErr CPUState :=
  if s.interrupts then do
    let s ← pollTimer timerFired s
    let s ← pollKey key s
    checkInterrupts s
  else pure s

/-- One full iteration of the `while True` loop in `CPU.run`: interrupt
poll, then halt check, then decode and dispatch. -/
def iteration (timerFired : Bool) (key : Option Nat) (s : CPUState) :
    Except PyErr StepResult := do
  let s ← pollPhase timerFired key s
  execPhase s

/-- `line.split('#')[0]`: the characters before the first `'#'`. -/
def splitHash : List Char → List Char
  | [] => []
  | c :: cs => if c = '#' then [] else c :: splitHash cs

/-- The ASCII whitespace stripped by Python's `str.strip()`. -/
def isPySpace (c : Char) : Bool :=
  c = ' ' || c = '\t' || c = '\n' || c = '\r' || c = '\x0b' || c = '\x0c'

/-- Python `str.strip()`: drop whitespace from both ends. -/
def pyStrip (cs : List Char) : List Char :=
  ((cs.dropWhile isPySpace).reverse.dropWhile isPySpace).reverse

/-- Accumulate the value of a list of binary digit characters. -/
def binDigitsVal : List Char → Nat → Option Nat
  | [], acc => some acc
  | c :: cs, acc =>
    if c = '0' then binDigitsVal cs (2 * acc)
    else if c = '1' then binDigitsVal cs (2 * acc + 1)
    else none

/-- Python `int(s, 2)` on a stripped string: optional sign, optional `0b`
prefix, then a non-empty run of binary digits; anything else raises
`ValueError`.  (PEP 515 underscore grouping is not modelled; the loaded
programs contain none.) -/
def pyIntBase2 (t : List Char) : Except PyErr Int :=
  let step1 : Bool × List Char :=
    match t with
    | '-' :: r => (true, r)
    | '+' :: r => (false, r)
    | r => (false, r)
  let digits : List Char :=
    match step1.2 with
    | '0' :: 'b' :: r => r
    | '0' :: 'B' :: r => r
    | r => r
  match digits, binDigitsVal digits 0 with
  | _ :: _, some n => .ok (if step1.1 then -(n : Int) else (n : Int))
  | _, _ => .error .valueError

/-- `CPU.load`, over the file's lines: strip comments and whitespace, skip
blank lines, parse each remaining line in base 2 and store its 8-bit
rendering at `ram[heap_height]`, incrementing `heap_height`.  State is
threaded through an error so that a partially performed load stays
observable, exactly as the Python object's ram does when an exception
escapes `load`. -/
def loadLines : List String → CPUState → CPUState × Option PyErr
  | [], s => (s, none)
  | l :: ls, s =>
    let t := pyStrip (splitHash l.data)
    if t = [] then loadLines ls s
    else
      match pyIntBase2 t with
      | .error e => (s, some e)
      | .ok v =>
        match listPySet s.ram s.heap_height (.str v) with
        | .error e => (s, some e)
        | .ok ram => loadLines ls { s with ram := ram, heap_height := s.heap_height + 1 }


end CPU

/-! ## Concrete machine states used to settle the claims -/

/-- A state ready to dispatch a two-operand ALU handler: the operand cells
`ram[0xff] = '00000000'` and `ram[0xfe] = '00000001'` name registers 0
and 1, which hold the strings for `a` and `b`. -/
def mkALU (a b : Int) : CPUState :=
  { initCPU with
    ram := ((List.replicate 256 (Val.int 0)).set 255 (Val.str 0)).set 254 (Val.str 1)
  , reg := (((List.replicate 8 (Val.str 0)).set 7 (Val.int 0xf4)).set 0 (Val.str a)).set 1 (Val.str b) }

/-- `mkALU` with a chosen prior flags int. -/
def mkCMP (a b f : Int) : CPUState := { mkALU a b with fl := .int f }

/-- `mkALU a b` after an ALU handler stored result `r` into register 0. -/
def aluOut (a b r : Int) : CPUState :=
  { mkALU a b with reg := (mkALU a b).reg.set 0 (Val.str r) }

/-- A loaded `PRN 0` program: `ram[0] = '01000111'` (the PRN opcode:
one operand, core namespace, op 0b0111), `ram[1] = '00000000'` (operand:
register 0), register 0 holding `a`, with chosen accumulator and stdout
contents.  Interrupts are off so `execPhase` is the whole iteration. -/
def mkPRN (a : Int) (acc so : String) : CPUState :=
  { initCPU with
    ram := ((List.replicate 256 (Val.int 0)).set 0 (Val.str 0b01000111)).set 1 (Val.str 0)
  , reg := ((List.replicate 8 (Val.str 0)).set 7 (Val.int 0xf4)).set 0 (Val.str a)
  , interrupts := false
  , next_room := acc
  , stdout := so }

/-- A fresh machine whose program is a single NOP byte (`'00000000'`),
interrupts enabled, IM clear: the state in which an ESC keystroke arrives. -/
def c4state : CPUState :=
  { initCPU with ram := (List.replicate 256 (Val.int 0)).set 0 (Val.str 0) }

/-- A state about to `PUSH 0` with the stack pointer already at 0:
`ram[0xff] = '00000000'` names register 0, which holds `v`. -/
def c5push (v : Int) : CPUState :=
  { initCPU with
    ram := (List.replicate 256 (Val.int 0)).set 255 (Val.str 0)
  , reg := ((List.replicate 8 (Val.str 0)).set 7 (Val.int 0)).set 0 (Val.str v) }

/-- A state about to `POP 0` with the stack pointer at 255 (the last valid
address). -/
def c5pop : CPUState :=
  { initCPU with
    ram := (List.replicate 256 (Val.int 0)).set 255 (Val.str 0)
  , reg := (List.replicate 8 (Val.str 0)).set 7 (Val.int 255) }

/-- A state about to `POP 0` with the stack pointer already past the top of
memory (256). -/
def c5popOver : CPUState :=
  { initCPU with
    ram := (List.replicate 256 (Val.int 0)).set 255 (Val.str 0)
  , reg := (List.replicate 8 (Val.str 0)).set 7 (Val.int 256) }

/-- A fresh machine whose program byte is `'00001001'`: operand-free, core
namespace, op code 9 — a code with no entry in `op_map[0][0]`. -/
def c6state : CPUState :=
  { initCPU with
    ram := (List.replicate 256 (Val.int 0)).set 0 (Val.str 9)
  , interrupts := false }

/-- A fresh machine with Byte cells at addresses 1 and 2, used to observe
where the operand fetch writes them. -/
def c10state : CPUState :=
  { initCPU with
    ram := (((List.replicate 256 (Val.int 0)).set 0 (Val.str 0)).set 1 (Val.str 33)).set 2 (Val.str 44) }

/-! ## Helper lemmas -/

theorem except_ok_bind {α β : Type} (a : α) (f : α → Except PyErr β) :
    (Except.ok a >>= f) = f a := rfl

theorem except_error_bind {α β : Type} (e : PyErr) (f : α → Except PyErr β) :
    ((Except.error e : Except PyErr α) >>= f) = .error e := rfl

theorem except_pure_bind {α β : Type} (a : α) (f : α → Except PyErr β) :
    ((pure a : Except PyErr α) >>= f) = f a := rfl

theorem except_map_ok {α β : Type} (g : α → β) (a : α) :
    (g <$> (Except.ok a : Except PyErr α)) = .ok (g a) := rfl

theorem except_map_error {α β : Type} (g : α → β) (e : PyErr) :
    (g <$> (Except.error e : Except PyErr α)) = .error e := rfl

theorem applyInfo_some (t : String) (ht : t ≠ "") (s : CPUState) :
    CPU.applyInfo (some t) s = { s with next_room := s.next_room ++ t } := by
  simp only [CPU.applyInfo]
  rw [if_pos ht]

theorem natLor_land_right (x y : Nat) : (x &&& y) ||| y = y := by
  apply Nat.eq_of_testBit_eq
  intro i
  simp only [Nat.testBit_or, Nat.testBit_and]
  cases x.testBit i <;> cases y.testBit i <;> rfl

theorem natLor_land_left (x y : Nat) : (y &&& x) ||| y = y := by
  apply Nat.eq_of_testBit_eq
  intro i
  simp only [Nat.testBit_or, Nat.testBit_and]
  cases x.testBit i <;> cases y.testBit i <;> rfl

/-- `(f & m) | m = m` for a non-negative mask, whatever int `f` is. -/
theorem pyOr_pyAnd_self (f m : Int) (hm : 0 ≤ m) : pyOr (pyAnd f m) m = m := by
  unfold pyAnd
  by_cases hf : 0 ≤ f
  · rw [if_pos hf, if_pos hm]
    unfold pyOr
    have h1 : (0 : Int) ≤ Int.ofNat (f.toNat &&& m.toNat) := Int.ofNat_nonneg _
    rw [if_pos h1, if_pos hm]
    show Int.ofNat ((f.toNat &&& m.toNat) ||| m.toNat) = m
    rw [natLor_land_right]
    exact Int.toNat_of_nonneg hm
  · rw [if_neg hf, if_pos hm]
    unfold pyOr
    have h1 : (0 : Int) ≤ Int.ofNat (natLdiff m.toNat (-f - 1).toNat) := Int.ofNat_nonneg _
    rw [if_pos h1, if_pos hm]
    show Int.ofNat (natLdiff m.toNat (-f - 1).toNat ||| m.toNat) = m
    unfold natLdiff
    rw [natLor_land_left]
    exact Int.toNat_of_nonneg hm

/-- `f & m` lies between `0` and `m` for a non-negative mask `m`. -/
theorem pyAnd_mask_bounds (f m : Int) (hm : 0 ≤ m) :
    0 ≤ pyAnd f m ∧ pyAnd f m ≤ m := by
  unfold pyAnd
  by_cases hf : 0 ≤ f
  · rw [if_pos hf, if_pos hm]
    refine ⟨Int.ofNat_nonneg _, ?_⟩
    calc (Int.ofNat (f.toNat &&& m.toNat)) ≤ Int.ofNat m.toNat :=
          Int.ofNat_le.mpr Nat.and_le_right
      _ = m := Int.toNat_of_nonneg hm
  · rw [if_neg hf, if_pos hm]
    refine ⟨Int.ofNat_nonneg _, ?_⟩
    have hle : natLdiff m.toNat (-f - 1).toNat ≤ m.toNat :=
      show m.toNat &&& _ ≤ m.toNat from Nat.and_le_left
    calc (Int.ofNat (natLdiff m.toNat (-f - 1).toNat)) ≤ Int.ofNat m.toNat :=
          Int.ofNat_le.mpr hle
      _ = m := Int.toNat_of_nonneg hm

/-- The 8-bit rendering is never the empty string, so a handler returning it
is truthy in `run`'s `if info` test. -/
theorem bin8_ne_empty (z : Int) : bin8 z ≠ "" := by
  unfold bin8
  split
  · intro h
    have := congrArg String.data h
    simp at this
  · intro h
    have hd := congrArg String.data h
    simp only [pad0] at hd
    have : List.replicate (8 - (Nat.toDigits 2 z.toNat).length) '0' = ([] : List Char) ∧
        Nat.toDigits 2 z.toNat = [] := by
      simpa using hd
    rcases this with ⟨h1, h2⟩
    rw [h2] at h1
    simp at h1

/-! ## Inversion and index lemmas -/

theorem bind_eq_ok {α β : Type} {x : Except PyErr α} {f : α → Except PyErr β} {b : β}
    (h : (x >>= f) = .ok b) : ∃ a, x = .ok a ∧ f a = .ok b := by
  cases x with
  | ok a => exact ⟨a, rfl, h⟩
  | error e => rw [except_error_bind] at h; exact absurd h (by simp)

theorem pyIdx_pos (len : Nat) (i : Int) (h0 : 0 ≤ i) (h1 : i < len) :
    pyIdx len i = some i.toNat := by
  unfold pyIdx
  rw [if_pos h0, if_pos h1]

theorem listPySet_toSet (l : List Val) (i : Int) (v : Val) (h0 : 0 ≤ i)
    (h1 : i < l.length) :
    listPySet l i v = .ok (l.set i.toNat v) := by
  unfold listPySet
  rw [pyIdx_pos l.length i h0 h1]
  show (if i.toNat < l.length then Except.ok (l.set i.toNat v)
        else Except.error PyErr.indexError) = Except.ok (l.set i.toNat v)
  rw [if_pos (by omega : i.toNat < l.length)]

theorem listPyGet_set_self (l : List Val) (n : Nat) (v : Val) (hn : n < l.length) :
    listPyGet (l.set n v) (n : Int) = .ok v := by
  unfold listPyGet
  rw [pyIdx_pos (l.set n v).length n (by positivity) (by simpa using hn)]
  simp only [Int.toNat_natCast]
  rw [List.getElem?_set_self (by simpa using hn)]

theorem listPyGet_set_ne (l : List Val) (n : Nat) (v : Val) (i : Int)
    (h0 : 0 ≤ i) (hne : i ≠ n) :
    listPyGet (l.set n v) i = listPyGet l i := by
  unfold listPyGet
  have hl : (l.set n v).length = l.length := by simp
  rw [hl]
  cases hidx : pyIdx l.length i with
  | none => rfl
  | some m =>
    have hm : m = i.toNat := by
      unfold pyIdx at hidx
      rw [if_pos h0] at hidx
      split at hidx
      · exact (Option.some_inj.mp hidx).symm
      · exact absurd hidx (by simp)
    have hmn : m ≠ n := by omega
    simp only []
    rw [List.getElem?_set_ne (Ne.symm hmn)]

/-! ## Preservation of the Output Accumulator by the interrupt poll -/

theorem spDec_pres {s s1 : CPUState} (h : CPU.spDec s = .ok s1) :
    s1.next_room = s.next_room := by
  unfold CPU.spDec at h
  obtain ⟨v, hv, h⟩ := bind_eq_ok h
  cases v with
  | str z => simp at h
  | int z =>
    obtain ⟨reg, hr, h⟩ := bind_eq_ok h
    simp only [pure, Except.pure, Except.ok.injEq] at h
    rw [← h]

theorem pushRegs_pres (l : List Int) : ∀ {s s1 : CPUState},
    CPU.pushRegs l s = .ok s1 → s1.next_room = s.next_room := by
  induction l with
  | nil =>
    intro s s1 h
    unfold CPU.pushRegs at h
    simp only [Except.ok.injEq] at h
    rw [← h]
  | cons i is ih =>
    intro s s1 h
    unfold CPU.pushRegs at h
    obtain ⟨s2, h2, h⟩ := bind_eq_ok h
    obtain ⟨c, hc, h⟩ := bind_eq_ok h
    obtain ⟨v7, hv7, h⟩ := bind_eq_ok h
    obtain ⟨spv, hspv, h⟩ := bind_eq_ok h
    obtain ⟨ram, hram, h⟩ := bind_eq_ok h
    obtain ⟨reg, hreg, h⟩ := bind_eq_ok h
    have e := ih h
    have e2 := spDec_pres h2
    exact e.trans e2

theorem INT_pres {s : CPUState} {r : Option String} {s1 : CPUState}
    (h : CPU.INT s = .ok (r, s1)) : s1.next_room = s.next_room := by
  unfold CPU.INT at h
  obtain ⟨c1, hc1, h⟩ := bind_eq_ok h
  obtain ⟨interrupt, hint, h⟩ := bind_eq_ok h
  obtain ⟨c6, hc6, h⟩ := bind_eq_ok h
  obtain ⟨isv, hisv, h⟩ := bind_eq_ok h
  obtain ⟨reg, hreg, h⟩ := bind_eq_ok h
  obtain ⟨s2, h2, h⟩ := bind_eq_ok h
  obtain ⟨c7, hc7, h⟩ := bind_eq_ok h
  obtain ⟨spv, hspv, h⟩ := bind_eq_ok h
  obtain ⟨ram, hram, h⟩ := bind_eq_ok h
  obtain ⟨s3, h3, h⟩ := bind_eq_ok h
  obtain ⟨c7b, hc7b, h⟩ := bind_eq_ok h
  obtain ⟨spv2, hspv2, h⟩ := bind_eq_ok h
  obtain ⟨ram2, hram2, h⟩ := bind_eq_ok h
  obtain ⟨s4, h4, h⟩ := bind_eq_ok h
  obtain ⟨cr, hcr, h⟩ := bind_eq_ok h
  obtain ⟨v, hv, h⟩ := bind_eq_ok h
  simp only [pure, Except.pure, Except.ok.injEq, Prod.mk.injEq] at h
  rw [← h.2]
  show s4.next_room = s.next_room
  have e4 := pushRegs_pres _ h4
  have e3 := spDec_pres h3
  have e2 := spDec_pres h2
  rw [e4]
  show s3.next_room = s.next_room
  rw [e3]
  show s2.next_room = s.next_room
  rw [e2]

theorem pollEsc_eq (k : Nat) (s : CPUState) : CPU.pollEsc k s = pure s := by
  unfold CPU.pollEsc
  split <;> rfl

theorem pollKey_pres {k : Option Nat} {s s1 : CPUState}
    (h : CPU.pollKey k s = .ok s1) : s1.next_room = s.next_room := by
  cases k with
  | none =>
    simp only [CPU.pollKey, pure, Except.pure, Except.ok.injEq] at h
    rw [← h]
  | some c =>
    simp only [CPU.pollKey, pollEsc_eq, except_pure_bind] at h
    obtain ⟨ram, hram, h⟩ := bind_eq_ok h
    obtain ⟨reg, hreg, h⟩ := bind_eq_ok h
    simp only [pure, Except.pure, Except.ok.injEq] at h
    rw [← h]

theorem pollTimer_pres {t : Bool} {s s1 : CPUState}
    (h : CPU.pollTimer t s = .ok s1) : s1.next_room = s.next_room := by
  unfold CPU.pollTimer at h
  by_cases ht : t
  · rw [if_pos ht] at h
    obtain ⟨reg, hreg, h⟩ := bind_eq_ok h
    simp only [pure, Except.pure, Except.ok.injEq] at h
    rw [← h]
  · rw [if_neg ht] at h
    simp only [pure, Except.pure, Except.ok.injEq] at h
    rw [← h]

theorem checkInterrupts_pres {s s1 : CPUState}
    (h : CPU.checkInterrupts s = .ok s1) : s1.next_room = s.next_room := by
  unfold CPU.checkInterrupts at h
  obtain ⟨c5, hc5, h⟩ := bind_eq_ok h
  obtain ⟨im, him, h⟩ := bind_eq_ok h
  obtain ⟨c6, hc6, h⟩ := bind_eq_ok h
  obtain ⟨isv, hisv, h⟩ := bind_eq_ok h
  split at h
  · obtain ⟨ram, hram, h⟩ := bind_eq_ok h
    obtain ⟨p, hint, h⟩ := bind_eq_ok h
    rcases p with ⟨ri, si⟩
    simp only [pure, Except.pure, Except.ok.injEq] at h
    rw [← h]
    have e := INT_pres hint
    exact e
  · simp only [pure, Except.pure, Except.ok.injEq] at h
    rw [← h]

theorem pollPhase_pres {t : Bool} {k : Option Nat} {s s1 : CPUState}
    (h : CPU.pollPhase t k s = .ok s1) : s1.next_room = s.next_room := by
  unfold CPU.pollPhase at h
  by_cases hi : s.interrupts
  · rw [if_pos hi] at h
    obtain ⟨s2, h2, h⟩ := bind_eq_ok h
    obtain ⟨s3, h3, h⟩ := bind_eq_ok h
    have e1 := checkInterrupts_pres h
    have e2 := pollKey_pres h3
    have e3 := pollTimer_pres h2
    rw [e1, e2, e3]
  · rw [if_neg hi] at h
    simp only [pure, Except.pure, Except.ok.injEq] at h
    rw [← h]

/-- The halt test of `execPhase`: it returns `halted out` exactly when the
cell at the pc is a Raw (native int) cell, and then `out` is the
accumulator. -/
theorem execPhase_halted_iff (s : CPUState) (out : String) :
    CPU.execPhase s = .ok (.halted out) ↔
      (∃ z, CPU.fetchCurrentCell s = .ok (.int z)) ∧ out = s.next_room := by
  unfold CPU.execPhase
  cases hc : CPU.fetchCurrentCell s with
  | error e =>
    rw [except_error_bind]
    simp
  | ok v =>
    rw [except_ok_bind]
    cases v with
    | int z =>
      simp only [pure, Except.pure, Except.ok.injEq, CPU.StepResult.halted.injEq]
      constructor
      · intro h
        exact ⟨⟨z, rfl⟩, h.symm⟩
      · intro ⟨_, h⟩
        exact h.symm
    | str instruction =>
      constructor
      · intro h
        obtain ⟨s2, h2, h⟩ := bind_eq_ok h
        simp only [pure, Except.pure, Except.ok.injEq] at h
        exact absurd h (by simp)
      · intro ⟨⟨z, hz⟩, _⟩
        simp at hz

/-! ## The claims -/

/-- C1: one iteration of `CPU.run` returns (halts) exactly when, after the
interrupt poll, the cell addressed by the program counter is a Raw (native
int) cell; at that moment it returns the full Output Accumulator text
(`next_room`, which the poll never changes) without attempting to decode
the Raw cell. -/
theorem c1_run_halts_iff_raw (t : Bool) (k : Option Nat) (s : CPUState) (out : String) :
    CPU.iteration t k s = .ok (.halted out) ↔
      ∃ s1, CPU.pollPhase t k s = .ok s1 ∧
        (∃ z, CPU.fetchCurrentCell s1 = .ok (.int z)) ∧ out = s.next_room := by
  unfold CPU.iteration
  cases hp : CPU.pollPhase t k s with
  | error e =>
    rw [except_error_bind]
    simp
  | ok s1 =>
    rw [except_ok_bind]
    rw [execPhase_halted_iff s1 out]
    have e := pollPhase_pres hp
    constructor
    · intro ⟨hz, ho⟩
      exact ⟨s1, rfl, hz, by rw [ho, e]⟩
    · intro ⟨s2, hs2, hz, ho⟩
      have hss : s2 = s1 := by
        have := hs2
        simp only [Except.ok.injEq] at this
        exact this.symm
      subst hss
      exact ⟨hz, by rw [ho, ← e]⟩

/-- C1 witness: the fresh machine, whose cell 0 is the Raw int 0, halts in
its first iteration and returns the empty accumulator. -/
theorem c1_witness :
    CPU.iteration false none initCPU = .ok (.halted "") :=
  (c1_run_halts_iff_raw false none initCPU "").mpr
    ⟨initCPU, rfl, ⟨0, rfl⟩, rfl⟩

/-- C2 counterexample: dispatching `PRN 0` with register 0 holding 5 changes
the Output Accumulator from `""` to `"00000101"` (the handler returns the
register string and `run` appends every truthy return), refuting the claim
that `PRN` leaves the accumulator unchanged; the decimal text `5` goes to
stdout. -/
theorem c2_counterexample :
    (∃ s, CPU.execPhase (mkPRN 5 "" "") = .ok (.next s) ∧
       s.next_room = "00000101" ∧ s.stdout = "5") ∧
    (mkPRN 5 "" "").next_room = "" :=
  ⟨⟨_, rfl, rfl, rfl⟩, rfl⟩

/-- C2 (amended): executing `PRN A` writes the decimal rendering of register
A to the caller-visible output channel and, in addition, appends register
A's 8-bit binary string to the Output Accumulator, because `PRN` returns the
register string and `run` appends every truthy handler return to
`next_room`. -/
theorem c2_prn_appends_accumulator (a : Int) (acc so : String) :
    ∃ s, CPU.execPhase (mkPRN a acc so) = .ok (.next s) ∧
      s.next_room = acc ++ bin8 a ∧ s.stdout = so ++ toString a := by
  have h0 : CPU.execPhase (mkPRN a acc so) =
      .ok (.next (CPU.applyInfo (some (bin8 a))
        { mkPRN a acc so with
          ram := ((mkPRN a acc so).ram).set 255 (Val.str 0)
        , pc := Val.int 2
        , stdout := so ++ toString a })) := rfl
  rw [applyInfo_some (bin8 a) (bin8_ne_empty a)] at h0
  exact ⟨_, h0, rfl, rfl⟩

/-- C2 witness: the amended statement at register value 7 with non-empty
prior accumulator and stdout. -/
theorem c2_witness :
    ∃ s, CPU.execPhase (mkPRN 7 "x" "y") = .ok (.next s) ∧
      s.next_room = "x" ++ bin8 7 ∧ s.stdout = "y" ++ toString (7 : Int) :=
  c2_prn_appends_accumulator 7 "x" "y"

/-- C3 counterexample: `SUB` at a = 2, b = 0 computes `(2 - 0) * 0xff = 510`
and stores it unmasked, so the stored register value lies outside 0..255,
refuting the claim that all eight listed ALU results are truncated. -/
theorem c3_counterexample :
    CPU.SUB (mkALU 2 0) = .ok (none, aluOut 2 0 510) ∧ ¬ ((510 : Int) ≤ 255) :=
  ⟨rfl, by norm_num⟩

/-- C3 (amended): for 8-bit operands, `ADD`, `MUL`, `AND`, `OR`, `XOR`,
`SHL` and `SHR` mask their result to 8 bits before storage, so the stored
value is in 0..255; `SUB` is the exception — it computes `(a - b) * 0xff`
unmasked (see the counterexample). -/
theorem c3_alu_truncation_amended (a b : Int) (ha0 : 0 ≤ a) (ha1 : a < 256)
    (hb0 : 0 ≤ b) (hb1 : b < 256) :
    (∃ r, CPU.ADD (mkALU a b) = .ok (none, aluOut a b r) ∧ 0 ≤ r ∧ r ≤ 255) ∧
    (∃ r, CPU.MUL (mkALU a b) = .ok (none, aluOut a b r) ∧ 0 ≤ r ∧ r ≤ 255) ∧
    (∃ r, CPU.AND (mkALU a b) = .ok (none, aluOut a b r) ∧ 0 ≤ r ∧ r ≤ 255) ∧
    (∃ r, CPU.OR (mkALU a b) = .ok (none, aluOut a b r) ∧ 0 ≤ r ∧ r ≤ 255) ∧
    (∃ r, CPU.XOR (mkALU a b) = .ok (none, aluOut a b r) ∧ 0 ≤ r ∧ r ≤ 255) ∧
    (∃ r, CPU.SHL (mkALU a b) = .ok (none, aluOut a b r) ∧ 0 ≤ r ∧ r ≤ 255) ∧
    (∃ r, CPU.SHR (mkALU a b) = .ok (none, aluOut a b r) ∧ 0 ≤ r ∧ r ≤ 255) := by
  have hbin : CPU.binArgs (mkALU a b) = .ok (0, a, b) := rfl
  have hshl : pyShl a b = .ok (a * 2 ^ b.toNat) := by
    unfold pyShl
    rw [if_neg (by omega : ¬ b < 0)]
  have hshr : pyShr a b = .ok (Int.fdiv a (2 ^ b.toNat)) := by
    unfold pyShr
    rw [if_neg (by omega : ¬ b < 0)]
  refine ⟨⟨pyAnd (a + b) 255, rfl, pyAnd_mask_bounds _ 255 (by norm_num)⟩,
          ⟨pyAnd (a * b) 255, rfl, pyAnd_mask_bounds _ 255 (by norm_num)⟩,
          ⟨pyAnd (pyAnd a b) 255, rfl, pyAnd_mask_bounds _ 255 (by norm_num)⟩,
          ⟨pyAnd (pyOr a b) 255, rfl, pyAnd_mask_bounds _ 255 (by norm_num)⟩,
          ⟨pyAnd (pyXor a b) 255, rfl, pyAnd_mask_bounds _ 255 (by norm_num)⟩,
          ⟨pyAnd (a * 2 ^ b.toNat) 255, ?_, pyAnd_mask_bounds _ 255 (by norm_num)⟩,
          ⟨pyAnd (Int.fdiv a (2 ^ b.toNat)) 255, ?_, pyAnd_mask_bounds _ 255 (by norm_num)⟩⟩
  · simp only [CPU.SHL, hbin, hshl, except_ok_bind, except_pure_bind]
    rfl
  · simp only [CPU.SHR, hbin, hshr, except_ok_bind, except_pure_bind]
    rfl

/-- C3 witness: the amended statement at a = 200, b = 100. -/
theorem c3_witness :
    ∃ r, CPU.ADD (mkALU 200 100) = .ok (none, aluOut 200 100 r) ∧ 0 ≤ r ∧ r ≤ 255 :=
  (c3_alu_truncation_amended 200 100 (by norm_num) (by norm_num)
    (by norm_num) (by norm_num)).1

/-- C4: when the keyboard poll returns ESC, the run does NOT terminate: the
`if key == ESC` branch calls `HLT()`, whose body is `pass`, then the key is
recorded, IS bit 1 is set, and the iteration goes on to decode and dispatch
the NOP at the pc (the result is `next`, not `halted`) — evaluating the code
at the claim's failing input. -/
theorem c4_escape_continues :
    ∃ s, CPU.iteration false (some 0x1b) c4state = .ok (.next s) ∧
      s.pc = .int 1 ∧
      listPyGet s.ram 0xf4 = .ok (.str 0x1b) ∧
      listPyGet s.reg 6 = .ok (.str 2) :=
  ⟨_, rfl, rfl, by decide, by decide⟩

/-- C5 counterexample: `PUSH 0` with the stack pointer at 0 succeeds (no
StackFault — no such error exists in the code), leaving the stack pointer at
-1, outside 0..255, with the write wrapped to `ram[255]` by Python's
negative indexing. -/
theorem c5_counterexample :
    (∃ s, CPU.PUSH (c5push 5) = .ok (none, s) ∧
       listPyGet s.reg 7 = .ok (.int (-1)) ∧
       listPyGet s.ram 255 = .ok (.str 5)) ∧
    ¬ (0 : Int) ≤ -1 :=
  ⟨⟨_, rfl, by decide, by decide⟩, by norm_num⟩

/-- C5 (amended): the stack operations perform no bounds check and never
raise a StackFault: a `PUSH` at stack pointer 0 succeeds with the pointer
at -1 and the value wrapped to `ram[255]`; a `POP` at 255 succeeds leaving
the pointer at 256; only the next out-of-range access fails, and with an
IndexError. -/
theorem c5_no_stack_bounds (v : Int) :
    (∃ s, CPU.PUSH (c5push v) = .ok (none, s) ∧
       listPyGet s.reg 7 = .ok (.int (-1)) ∧
       listPyGet s.ram 255 = .ok (.str v)) ∧
    (∃ s, CPU.POP c5pop = .ok (none, s) ∧ listPyGet s.reg 7 = .ok (.int 256)) ∧
    CPU.POP c5popOver = .error .indexError := by
  refine ⟨⟨_, rfl, ?_, ?_⟩, ⟨_, rfl, by decide⟩, by decide⟩
  · rfl
  · rfl

/-- C5 witness: the amended statement at register value 9. -/
theorem c5_witness :
    ∃ s, CPU.PUSH (c5push 9) = .ok (none, s) ∧
       listPyGet s.reg 7 = .ok (.int (-1)) ∧
       listPyGet s.ram 255 = .ok (.str 9) :=
  (c5_no_stack_bounds 9).1

/-- C6 counterexample: executing the unassigned core op code 9 does not
abort: the iteration returns `next` with the pc advanced and the warning
printed to stdout, so execution continues past the unrecognized opcode. -/
theorem c6_counterexample :
    ∃ s, CPU.execPhase c6state = .ok (.next s) ∧
      s.pc = .int 1 ∧
      s.stdout = "Unknown instruction 9 at address 1\n" :=
  ⟨_, rfl, rfl, rfl⟩

/-- C6 (amended): when the decoded `(is_alu, sets_pc, op_code)` triple has no
handler (here: an operand-free core-namespace instruction whose op code
misses `op_map[0][0]`), the run prints an `Unknown instruction` warning and
continues with the next cycle; no DecodeError aborts the run. -/
theorem c6_unknown_op_continues (s : CPUState) (p z : Int)
    (hpc : s.pc = .int p)
    (hcell : CPU.fetchCurrentCell s = .ok (.str z))
    (hbytes : Int.fdiv z 64 = 0)
    (halu : Int.fdiv (pyAnd z 0b00100000) 32 = 0)
    (hadv : Int.fdiv (pyAnd z 0b00010000) 16 = 0)
    (hmiss : CPU.opMapCore (pyAnd z 0b00001111) = none) :
    CPU.execPhase s = .ok (.next { s with
      pc := .int (p + 1)
    , stdout := s.stdout ++ "Unknown instruction " ++ toString (pyAnd z 0b00001111) ++
        " at address " ++ toString (p + 1) ++ "\n" }) := by
  simp only [CPU.execPhase, hcell, except_ok_bind]
  simp only [CPU.execInstr, hbytes, halu, hadv, Int.toNat_zero, CPU.fetchOperands,
    except_ok_bind, except_pure_bind]
  norm_num
  simp only [CPU.lookupOp, hpc, valAdd, hmiss, except_ok_bind, except_pure_bind,
    except_map_ok, CPU.ppVal]
  norm_num
  rfl

/-- C6 witness: the amended statement at the concrete machine whose program
byte is the unassigned core op code 9. -/
theorem c6_witness :
    CPU.execPhase c6state = .ok (.next { c6state with
      pc := .int 1
    , stdout := c6state.stdout ++ "Unknown instruction " ++
        toString (pyAnd (9 : Int) 0b00001111) ++ " at address " ++
        toString ((0 : Int) + 1) ++ "\n" }) :=
  c6_unknown_op_continues c6state 0 9 rfl rfl (by decide) (by decide) (by decide) rfl

/-- C7 counterexample: loading the two-line program `00000001`, `2` fails
(with a ValueError, there is no InvalidEncoding), yet memory differs from
its initial state afterwards — the first line is already stored. -/
theorem c7_counterexample :
    (CPU.loadLines ["00000001", "2"] initCPU).2 = some .valueError ∧
    (CPU.loadLines ["00000001", "2"] initCPU).1.ram ≠ initCPU.ram :=
  ⟨rfl, by decide⟩

/-- C7 (amended): a failing load leaves every line before the failure point
written: after a valid line followed by an invalid one, the load stops with
a ValueError while `ram[0]` already holds the first byte and `heap_height`
is 1 — the partial load is observable. -/
theorem c7_partial_load_observable (rest : List String) :
    (CPU.loadLines ("00000001" :: "2" :: rest) initCPU).2 = some .valueError ∧
    listPyGet (CPU.loadLines ("00000001" :: "2" :: rest) initCPU).1.ram 0 = .ok (.str 1) ∧
    (CPU.loadLines ("00000001" :: "2" :: rest) initCPU).1.heap_height = 1 :=
  ⟨rfl, rfl, rfl⟩

/-- C7 witness: the amended statement with one further line after the
failure point. -/
theorem c7_witness :
    (CPU.loadLines ["00000001", "2", "11"] initCPU).2 = some .valueError ∧
    listPyGet (CPU.loadLines ["00000001", "2", "11"] initCPU).1.ram 0 = .ok (.str 1) ∧
    (CPU.loadLines ["00000001", "2", "11"] initCPU).1.heap_height = 1 :=
  c7_partial_load_observable ["11"]

/-- C8: after `CMP A,B` on 8-bit-register state, the flags register equals
exactly 1 (Equal), 2 (Greater) or 4 (Less) according to the unsigned
comparison, whatever int the flags held before — exactly one of the three
bits is set and every other bit is clear, so no residue from an earlier
comparison survives. -/
theorem c8_cmp_exclusive (a b f : Int) :
    CPU.CMP (mkCMP a b f) =
      .ok (none, { mkCMP a b f with
        fl := .int (if a = b then 1 else if a > b then 2 else 4) }) ∧
    ((if a = b then (1 : Int) else if a > b then 2 else 4) = 1 ∨
     (if a = b then (1 : Int) else if a > b then 2 else 4) = 2 ∨
     (if a = b then (1 : Int) else if a > b then 2 else 4) = 4) := by
  have hb : CPU.binArgs (mkCMP a b f) = .ok (0, a, b) := rfl
  have hfl : valInt (mkCMP a b f).fl = Except.ok f := rfl
  constructor
  · rcases lt_trichotomy a b with h | h | h
    · simp only [CPU.CMP, hb, hfl, except_ok_bind, except_pure_bind]
      rw [if_neg (by omega : ¬ a = b), if_neg (by omega : ¬ a > b), if_pos h,
          pyOr_pyAnd_self f 4 (by norm_num)]
      rw [if_neg (by omega : ¬ a = b), if_neg (by omega : ¬ a > b)]
      rfl
    · simp only [CPU.CMP, hb, hfl, except_ok_bind, except_pure_bind]
      rw [if_pos h, if_neg (by omega : ¬ a > b), if_neg (by omega : ¬ a < b),
          pyOr_pyAnd_self f 1 (by norm_num)]
      rw [if_pos h]
      rfl
    · simp only [CPU.CMP, hb, hfl, except_ok_bind, except_pure_bind]
      rw [if_neg (by omega : ¬ a = b), if_pos (by omega : a > b),
          if_neg (by omega : ¬ a < b), pyOr_pyAnd_self f 2 (by norm_num)]
      rw [if_neg (by omega : ¬ a = b), if_pos (by omega : a > b)]
      rfl
  · split_ifs <;> simp

/-- C8 witness: comparing 3 with 5 after a junk flags value 246 leaves the
flags at exactly 4 (Less). -/
theorem c8_witness :
    CPU.CMP (mkCMP 3 5 246) = .ok (none, { mkCMP 3 5 246 with fl := .int 4 }) := by
  have h := (c8_cmp_exclusive 3 5 246).1
  simpa using h

/-- C9: `NOT A` never succeeds: the source computes `int(~int(reg, 2), 2)`,
whose outer conversion applies `int(..., 2)` to an int and always raises
TypeError, so the complement is never written back — the claim is right
about the intent and the code is a slip (evaluated here at register value
5, operand byte 0). -/
theorem c9_not_raises_typeerror : CPU.NOT (mkALU 5 0) = .error .typeError := rfl

/-- C10: the operand fetch stores operands in Memory itself: a dispatch with
one operand overwrites `ram[0xff]` with the byte after the opcode, and with
two operands also overwrites `ram[0xfe]` with the second byte; both
addresses lie inside 0xf8..0xff, the region where the interrupt controller
writes its vector addresses `(0xff - 7) + i` for lines `i < 8`. -/
theorem c10_operand_fetch_hits_vector_table (s : CPUState) (p : Int) (c1 c2 : Val)
    (hlen : s.ram.length = 256)
    (hp0 : 0 ≤ p) (hp2 : p + 2 < 255)
    (hpc : s.pc = .int p)
    (h1 : listPyGet s.ram (p + 1) = .ok c1)
    (h2 : listPyGet s.ram (p + 2) = .ok c2) :
    (∃ s1, CPU.fetchOperands 1 0xff s = .ok s1 ∧
       listPyGet s1.ram 0xff = .ok c1 ∧ s1.pc = .int (p + 1)) ∧
    (∃ s2, CPU.fetchOperands 2 0xff s = .ok s2 ∧
       listPyGet s2.ram 0xff = .ok c1 ∧ listPyGet s2.ram 0xfe = .ok c2 ∧
       s2.pc = .int (p + 2)) ∧
    (∀ i : Nat, i < 8 → 0xf8 ≤ CPU.vectorAddr i ∧ CPU.vectorAddr i ≤ 0xff) ∧
    ((0xf8 : Int) ≤ 0xfe ∧ (0xfe : Int) ≤ 0xff ∧ (0xf8 : Int) ≤ 0xff) := by
  have hset255 : listPySet s.ram 255 c1 = .ok (s.ram.set 255 c1) := by
    have := listPySet_toSet s.ram 255 c1 (by norm_num) (by omega)
    simpa using this
  have hget2 : listPyGet (s.ram.set 255 c1) (p + 2) = .ok c2 := by
    rw [listPyGet_set_ne s.ram 255 c1 (p + 2) (by omega) (by omega)]
    exact h2
  have hset254 : listPySet (s.ram.set 255 c1) 254 c2 =
      .ok ((s.ram.set 255 c1).set 254 c2) := by
    have := listPySet_toSet (s.ram.set 255 c1) 254 c2 (by norm_num) (by simp [hlen])
    simpa using this
  have hr255 : listPyGet ((s.ram.set 255 c1).set 254 c2) 0xff = .ok c1 := by
    rw [listPyGet_set_ne _ 254 c2 0xff (by norm_num) (by norm_num)]
    have := listPyGet_set_self s.ram 255 c1 (by omega)
    simpa using this
  have hr254 : listPyGet ((s.ram.set 255 c1).set 254 c2) 0xfe = .ok c2 := by
    have := listPyGet_set_self (s.ram.set 255 c1) 254 c2 (by simp [hlen])
    simpa using this
  have hr255one : listPyGet (s.ram.set 255 c1) 0xff = .ok c1 := by
    have := listPyGet_set_self s.ram 255 c1 (by omega)
    simpa using this
  have hf1 : CPU.fetchOperands 1 0xff s =
      .ok { s with pc := Val.int (p + 1), ram := s.ram.set 255 c1 } := by
    simp only [CPU.fetchOperands, hpc, valAdd, CPU.fetchCurrentCell, valInt,
      except_ok_bind, except_pure_bind]
    show (do
      let c ← listPyGet s.ram (p + 1)
      let ram ← listPySet s.ram 0xff c
      CPU.fetchOperands 0 (0xff - 1) { s with pc := Val.int (p + 1), ram := ram }) = _
    rw [h1, except_ok_bind, show ((0xff : Int)) = 255 from rfl, hset255]
    rfl
  have hf2 : CPU.fetchOperands 2 0xff s =
      .ok { s with pc := Val.int (p + 2), ram := (s.ram.set 255 c1).set 254 c2 } := by
    simp only [CPU.fetchOperands, hpc, valAdd, CPU.fetchCurrentCell, valInt,
      except_ok_bind, except_pure_bind]
    show (do
      let c ← listPyGet s.ram (p + 1)
      let ram ← listPySet s.ram 0xff c
      CPU.fetchOperands 1 (0xff - 1) { s with pc := Val.int (p + 1), ram := ram }) = _
    rw [h1, except_ok_bind, show ((0xff : Int)) = 255 from rfl, hset255, except_ok_bind]
    simp only [CPU.fetchOperands, valAdd, CPU.fetchCurrentCell, valInt,
      except_ok_bind, except_pure_bind]
    show (do
      let c ← listPyGet (s.ram.set 255 c1) (p + 1 + 1)
      let ram ← listPySet (s.ram.set 255 c1) (0xff - 1) c
      CPU.fetchOperands 0 (0xff - 1 - 1)
        { s with pc := Val.int (p + 1 + 1), ram := ram }) = _
    rw [show p + 1 + 1 = p + 2 from by ring, hget2, except_ok_bind,
        show ((0xff : Int) - 1) = 254 from rfl, hset254]
    rfl
  exact ⟨⟨_, hf1, hr255one, rfl⟩, ⟨_, hf2, hr255, hr254, rfl⟩,
    (fun i hi => by unfold CPU.vectorAddr; omega), by norm_num⟩

/-- C10 witness: the fetch claims at the concrete machine with Byte cells 33
and 44 at addresses 1 and 2 and the pc at 0. -/
theorem c10_witness :
    (∃ s1, CPU.fetchOperands 1 0xff c10state = .ok s1 ∧
       listPyGet s1.ram 0xff = .ok (.str 33) ∧ s1.pc = .int (0 + 1)) ∧
    (∃ s2, CPU.fetchOperands 2 0xff c10state = .ok s2 ∧
       listPyGet s2.ram 0xff = .ok (.str 33) ∧ listPyGet s2.ram 0xfe = .ok (.str 44) ∧
       s2.pc = .int (0 + 2)) ∧
    (∀ i : Nat, i < 8 → 0xf8 ≤ CPU.vectorAddr i ∧ CPU.vectorAddr i ≤ 0xff) ∧
    ((0xf8 : Int) ≤ 0xfe ∧ (0xfe : Int) ≤ 0xff ∧ (0xf8 : Int) ≤ 0xff) :=
  c10_operand_fetch_hits_vector_table c10state 0 (.str 33) (.str 44) rfl
    (by norm_num) (by norm_num) rfl (by decide) (by decide)
